import Mathlib

/-!
Shallow embedding of `src/prompt_manager_yml.py`.

The module manages prompt templates stored as YAML files in a folder and
renders them with Python `str.format` substitution.  We embed:

* the fragment of Python's `str.format` / `str.format_map` string-formatting
  machinery that the module exercises: literal text, `{{` / `}}` escapes,
  replacement fields `{name[!conv][:spec]}` with keyword lookup, the `s`/`r`/`a`
  conversions, and the standard format-spec mini-language
  `[[fill]align][sign][#][0][width][.precision][type]` for strings and
  integers.  Parameter values are modelled by `PyValue` (strings and
  integers).  Constructs outside the modelled fragment (attribute or index
  accessors in field names, nested replacement fields inside a format spec,
  numeric presentation types other than `d`, digit grouping) are mapped to the
  distinguished error `FormatError.unsupported`; no theorem below relies on
  the behaviour of those constructs.
* the filesystem view the manager needs: a folder is a list of named entries,
  each a file with an already-parsed YAML document (`yaml.safe_load` is an
  external collaborator; a document is a string, a string-keyed mapping, or
  some other value of which only the Python type name is observable) or a
  subdirectory.
* the `PromptManager` class itself: `list_prompts`, `has_prompt`,
  `get_template`, `render`, `clear_cache`, `_resolve_path`,
  `_load_template_from_file`.  Stateful methods take and return the manager
  state explicitly and additionally report the list of file paths whose
  content was read, so that cache/disk-access claims can be stated.
-/

namespace PromptManagerYml

/-- Character code 123, the opening curly brace. -/
def lbraceC : Char := Char.ofNat 123

/-- Character code 125, the closing curly brace. -/
def rbraceC : Char := Char.ofNat 125

/-- Character code 39, the single-quote character. -/
def squoteC : Char := Char.ofNat 39

/-- Character code 34, the double-quote character. -/
def dquoteC : Char := Char.ofNat 34

/-- Character code 92, the backslash character. -/
def backslashC : Char := Char.ofNat 92

/-- The opening curly brace as a one-character string. -/
def lb : String := String.singleton lbraceC

/-- The closing curly brace as a one-character string. -/
def rb : String := String.singleton rbraceC

/-- The single quote as a one-character string. -/
def sq : String := String.singleton squoteC

/-- Python values that can be passed as rendering parameters (modelled
fragment: strings and integers). -/
inductive PyValue where
  | s (v : String)
  | i (v : Int)
deriving DecidableEq

/-- Python `str` applied to a `PyValue`. -/
def pyStr : PyValue → String
  | .s v => v
  | .i v => toString v

/-- Hexadecimal digit for a value below 16. -/
def hexDigit (n : Nat) : Char :=
  if n < 10 then Char.ofNat (48 + n) else Char.ofNat (87 + n)

/-- Two-digit lowercase hexadecimal rendering of a byte value. -/
def hex2 (n : Nat) : String :=
  String.mk [hexDigit (n / 16 % 16), hexDigit (n % 16)]

/-- Value of a digit string, as Python `int` reads it. -/
def digitsToNat (l : List Char) : Nat :=
  l.foldl (fun n c => 10 * n + (c.toNat - 48)) 0

/-- Escape one character of a Python string repr, given the chosen quote
character.  Mirrors CPython: backslash, the quote, `\n`, `\r`, `\t` get
two-character escapes; other ASCII/Latin-1 control characters become `\xhh`;
everything else is kept.  When `escNonAscii` is set (the `ascii` builtin, i.e.
the `!a` conversion) non-ASCII characters are escaped as well. -/
def pyEscChar (escNonAscii : Bool) (q c : Char) : String :=
  if c = backslashC then String.mk [backslashC, backslashC]
  else if c = q then String.mk [backslashC, q]
  else if c = Char.ofNat 10 then String.mk [backslashC, Char.ofNat 110]
  else if c = Char.ofNat 13 then String.mk [backslashC, Char.ofNat 114]
  else if c = Char.ofNat 9 then String.mk [backslashC, Char.ofNat 116]
  else if c.toNat < 32 ∨ c.toNat = 127 ∨ (161 > c.toNat ∧ c.toNat > 127) then
    String.mk [backslashC, Char.ofNat 120] ++ hex2 c.toNat
  else if escNonAscii ∧ c.toNat > 127 then
    if c.toNat ≤ 255 then String.mk [backslashC, Char.ofNat 120] ++ hex2 c.toNat
    else if c.toNat ≤ 65535 then
      String.mk [backslashC, Char.ofNat 117] ++ hex2 (c.toNat / 256) ++ hex2 (c.toNat % 256)
    else
      String.mk [backslashC, Char.ofNat 85] ++ hex2 (c.toNat / 16777216 % 256) ++
        hex2 (c.toNat / 65536 % 256) ++ hex2 (c.toNat / 256 % 256) ++ hex2 (c.toNat % 256)
  else String.singleton c

/-- Python `repr` of a string: single quotes, switching to double quotes when
the content holds a single quote but no double quote. -/
def pyReprStrWith (escNonAscii : Bool) (v : String) : String :=
  let q := if v.toList.contains squoteC ∧ ¬ v.toList.contains dquoteC then dquoteC else squoteC
  String.singleton q ++ String.join (v.toList.map (pyEscChar escNonAscii q)) ++ String.singleton q

/-- Python `repr` of a `PyValue`. -/
def pyRepr : PyValue → String
  | .s v => pyReprStrWith false v
  | .i v => toString v

/-- Python `ascii` of a `PyValue`. -/
def pyAscii : PyValue → String
  | .s v => pyReprStrWith true v
  | .i v => toString v

/-- The Python type name of a `PyValue`, as `type(v).__name__` would give. -/
def pyTypeName : PyValue → String
  | .s _ => "str"
  | .i _ => "int"

/-- Errors that Python's formatting machinery can raise, as the `render`
method observes them: `KeyError` (carrying the missing key), `IndexError`
and `ValueError` (carrying the message `str(e)`).  `unsupported` marks the
boundary of the modelled fragment and corresponds to no claim. -/
inductive FormatError where
  | keyError (key : String)
  | indexError (msg : String)
  | valueError (msg : String)
  | unsupported (msg : String)
deriving DecidableEq

/-- Message of CPython's lone-open-brace error. -/
def msgSingleLbrace : String :=
  "Single " ++ sq ++ lb ++ sq ++ " encountered in format string"

/-- Message of CPython's lone-close-brace error. -/
def msgSingleRbrace : String :=
  "Single " ++ sq ++ rb ++ sq ++ " encountered in format string"

/-- Message of CPython's unterminated-field error. -/
def msgExpectedRbrace : String :=
  "expected " ++ sq ++ rb ++ sq ++ " before end of string"

/-- Message of CPython's unterminated-format-spec error. -/
def msgUnmatchedSpec : String :=
  "unmatched " ++ sq ++ lb ++ sq ++ " in format spec"

/-- Message of CPython's brace-inside-field-name error. -/
def msgLbraceInName : String :=
  "unexpected " ++ sq ++ lb ++ sq ++ " in field name"

/-- Message of CPython's truncated-conversion error. -/
def msgEndConversion : String :=
  "end of string while looking for conversion specifier"

/-- Message of CPython's missing-colon-after-conversion error. -/
def msgExpectedColon : String :=
  "expected " ++ sq ++ ":" ++ sq ++ " after conversion specifier"

/-- A parsed replacement field: the field name, the optional conversion
character, and the raw format spec. -/
structure FmtField where
  name : List Char
  conv : Option Char
  spec : List Char
deriving DecidableEq

/-- Split a field's raw text at the first `!` or `:`, yielding the field
name and the rest (which starts with the stopper when present). -/
def splitFieldName : List Char → List Char × List Char
  | [] => ([], [])
  | c :: rest =>
    if c = '!' ∨ c = ':' then ([], c :: rest)
    else
      let p := splitFieldName rest
      (c :: p.1, p.2)

/-- Parse the raw text between the braces of a replacement field into a
`FmtField`, mirroring CPython's `parse_field`. -/
def parseFieldChars (l : List Char) : Except FormatError FmtField :=
  let p := splitFieldName l
  match p.2 with
  | [] => .ok ⟨p.1, none, []⟩
  | stop :: rest =>
    if stop = ':' then .ok ⟨p.1, none, rest⟩
    else
      match rest with
      | [] => .error (.valueError msgUnmatchedSpec)
      | c :: rest2 =>
        match rest2 with
        | [] => .ok ⟨p.1, some c, []⟩
        | c2 :: rest3 =>
          if c2 = ':' then .ok ⟨p.1, some c, rest3⟩
          else .error (.valueError msgExpectedColon)

/-- Look up the value of a field name: empty or all-digit names are
positional references, and the manager never passes positional arguments, so
they raise `IndexError`; accessor syntax (`.`/`[`) is outside the modelled
fragment; anything else is a keyword looked up through `gv`. -/
def getFieldValue (gv : String → Except FormatError PyValue) (name : List Char) :
    Except FormatError PyValue :=
  if name.any (fun c => c = '.' ∨ c = '[' ∨ c = ']') then
    .error (.unsupported "attribute or index accessor in field name")
  else if name.isEmpty ∨ name.all Char.isDigit then
    .error (.indexError ("Replacement index " ++ toString (digitsToNat name) ++
      " out of range for positional args tuple"))
  else gv (String.mk name)

/-- Apply an optional conversion (`!s`, `!r`, `!a`) to a looked-up value. -/
def convertField (v : PyValue) : Option Char → Except FormatError PyValue
  | none => .ok v
  | some c =>
    if c = 's' then .ok (.s (pyStr v))
    else if c = 'r' then .ok (.s (pyRepr v))
    else if c = 'a' then .ok (.s (pyAscii v))
    else .error (.valueError ("Unknown conversion specifier " ++ String.singleton c))

/-- A parsed standard format spec. -/
structure StdSpec where
  fill : Option Char
  align : Option Char
  sign : Option Char
  altForm : Bool
  zeroPad : Bool
  width : Nat
  precision : Option Nat
  typ : Option Char
deriving DecidableEq

/-- True for the alignment characters of the format-spec mini-language. -/
def isAlignChar (c : Char) : Bool := c = '<' ∨ c = '>' ∨ c = '^' ∨ c = '='

/-- Digits of a character list parsed as a number, with the rest. -/
def takeNat (l : List Char) : Nat × List Char :=
  (digitsToNat (l.takeWhile Char.isDigit), l.dropWhile Char.isDigit)

/-- Parse the standard format-spec mini-language
`[[fill]align][sign][#][0][width][.precision][type]` (digit grouping is
outside the modelled fragment).  `typeName` is the Python type name of the
value being formatted, used only in the invalid-specifier message. -/
def parseStdSpec (typeName : String) (spec : List Char) : Except FormatError StdSpec := do
  let (fill, align, l1) :=
    match spec with
    | a :: b :: rest =>
      if isAlignChar b then (some a, some b, rest)
      else if isAlignChar a then (none, some a, b :: rest)
      else ((none : Option Char), (none : Option Char), spec)
    | [a] => if isAlignChar a then (none, some a, []) else (none, none, spec)
    | [] => (none, none, spec)
  let (sign, l2) :=
    match l1 with
    | c :: rest => if c = '+' ∨ c = '-' ∨ c = ' ' then (some c, rest) else ((none : Option Char), l1)
    | [] => (none, l1)
  let (alt, l3) :=
    match l2 with
    | c :: rest => if c = '#' then (true, rest) else (false, l2)
    | [] => (false, l2)
  let (zero, l4) :=
    match l3 with
    | c :: rest => if c = '0' then (true, rest) else (false, l3)
    | [] => (false, l3)
  let (width, l5) := takeNat l4
  if l5.head? = some ',' ∨ l5.head? = some '_' then
    .error (.unsupported "digit grouping in format spec")
  else
    let (precision, l6) ← do
      match l5 with
      | c :: rest =>
        if c = '.' then do
          let ds := rest.takeWhile Char.isDigit
          if ds.isEmpty then
            .error (.valueError "Format specifier missing precision")
          else
            pure (some (digitsToNat ds), rest.dropWhile Char.isDigit)
        else pure ((none : Option Nat), l5)
      | [] => pure ((none : Option Nat), l5)
    match l6 with
    | [] => .ok ⟨fill, align, sign, alt, zero, width, precision, none⟩
    | [t] => .ok ⟨fill, align, sign, alt, zero, width, precision, some t⟩
    | _ => .error (.valueError ("Invalid format specifier " ++ sq ++ String.mk spec ++ sq ++
        " for object of type " ++ sq ++ typeName ++ sq))

/-- Repeat a character `n` times. -/
def padStr (c : Char) (n : Nat) : String := String.mk (List.replicate n c)

/-- Format a string value against a parsed standard spec, as CPython's
`str.__format__` does. -/
def applySpecStr (v : String) (s : StdSpec) : Except FormatError String :=
  if s.sign.isSome then
    .error (.valueError "Sign not allowed in string format specifier")
  else if s.altForm then
    .error (.valueError "Alternate form (#) not allowed in string format specifier")
  else if s.align = some '=' then
    .error (.valueError ("" ++ sq ++ "=" ++ sq ++ " alignment not allowed in string format specifier"))
  else if ¬ (s.typ = none ∨ s.typ = some 's') then
    .error (.valueError ("Unknown format code " ++ sq ++
      String.singleton (s.typ.getD ' ') ++ sq ++ " for object of type " ++ sq ++ "str" ++ sq))
  else
    let core := match s.precision with
      | some p => String.mk (v.toList.take p)
      | none => v
    let fill := s.fill.getD (if s.zeroPad then '0' else ' ')
    let n := core.length
    if s.width ≤ n then .ok core
    else
      let pad := s.width - n
      match s.align.getD '<' with
      | '>' => .ok (padStr fill pad ++ core)
      | '^' => .ok (padStr fill (pad / 2) ++ core ++ padStr fill (pad - pad / 2))
      | _ => .ok (core ++ padStr fill pad)

/-- Format an integer value against a parsed standard spec (presentation
type `d` or none; other numeric presentation types are outside the modelled
fragment). -/
def applySpecInt (v : Int) (s : StdSpec) : Except FormatError String :=
  if s.precision.isSome then
    .error (.valueError "Precision not allowed in integer format specifier")
  else if s.typ = some 's' then
    .error (.valueError ("Unknown format code " ++ sq ++ "s" ++ sq ++
      " for object of type " ++ sq ++ "int" ++ sq))
  else if ¬ (s.typ = none ∨ s.typ = some 'd') then
    .error (.unsupported "numeric presentation type outside the modelled fragment")
  else
    let signStr := if v < 0 then "-"
      else if s.sign = some '+' then "+"
      else if s.sign = some ' ' then " "
      else ""
    let digits := toString v.natAbs
    let core := signStr ++ digits
    let fill := s.fill.getD (if s.zeroPad then '0' else ' ')
    let align := s.align.getD (if s.zeroPad then '=' else '>')
    let n := core.length
    if s.width ≤ n then .ok core
    else
      let pad := s.width - n
      match align with
      | '<' => .ok (core ++ padStr fill pad)
      | '^' => .ok (padStr fill (pad / 2) ++ core ++ padStr fill (pad - pad / 2))
      | '=' => .ok (signStr ++ padStr fill pad ++ digits)
      | _ => .ok (padStr fill pad ++ core)

/-- Python `format(v, spec)` for the modelled value kinds. -/
def formatValue (v : PyValue) (spec : List Char) : Except FormatError String := do
  let s ← parseStdSpec (pyTypeName v) spec
  match v with
  | .s str => applySpecStr str s
  | .i n => applySpecInt n s

/-- Process one replacement field: look the name up, convert, format. -/
def processField (gv : String → Except FormatError PyValue) (f : FmtField) :
    Except FormatError String := do
  let v ← getFieldValue gv f.name
  let v2 ← convertField v f.conv
  formatValue v2 f.spec

/-- Scanner state of the one-pass markup interpreter: plain text, just after
an opening brace, just after a closing brace, or inside a replacement field
with the text accumulated so far. -/
inductive ScanSt where
  | text
  | afterLbrace
  | afterRbrace
  | inField (acc : List Char)
deriving DecidableEq

/-- Error produced when the input ends in the given scanner state, mirroring
CPython's messages for each truncation point. -/
def endOfInputError (acc : List Char) : FormatError :=
  if acc.contains ':' then .valueError msgUnmatchedSpec
  else if acc.getLast? = some '!' then .valueError msgEndConversion
  else if acc.contains '!' then .valueError msgUnmatchedSpec
  else .valueError msgExpectedRbrace

/-- One-pass interpretation of a format string, mirroring CPython's
`do_markup`: literal text is copied, `{{` and `}}` emit a single brace, a
lone `}` is an error, and each replacement field is parsed and processed in
place (so errors are reported in left-to-right positional order, exactly as
the C implementation raises them).  `gv` resolves keyword field names. -/
def doMarkup (gv : String → Except FormatError PyValue) : ScanSt → List Char → Except FormatError String
  | .text, [] => .ok ""
  | .afterLbrace, [] => .error (.valueError msgSingleLbrace)
  | .afterRbrace, [] => .error (.valueError msgSingleRbrace)
  | .inField acc, [] =>
    if acc = [] then .error (.valueError msgSingleLbrace)
    else .error (endOfInputError acc)
  | .text, c :: rest =>
    if c = lbraceC then doMarkup gv .afterLbrace rest
    else if c = rbraceC then doMarkup gv .afterRbrace rest
    else (fun s => String.singleton c ++ s) <$> doMarkup gv .text rest
  | .afterLbrace, c :: rest =>
    if c = lbraceC then (fun s => lb ++ s) <$> doMarkup gv .text rest
    else if c = rbraceC then do
      let f ← parseFieldChars []
      let s ← processField gv f
      (fun t => s ++ t) <$> doMarkup gv .text rest
    else doMarkup gv (.inField [c]) rest
  | .afterRbrace, c :: rest =>
    if c = rbraceC then (fun s => rb ++ s) <$> doMarkup gv .text rest
    else .error (.valueError msgSingleRbrace)
  | .inField acc, c :: rest =>
    if c = rbraceC then do
      let f ← parseFieldChars acc
      let s ← processField gv f
      (fun t => s ++ t) <$> doMarkup gv .text rest
    else if c = lbraceC then
      if acc.contains ':' then .error (.unsupported "nested replacement field in format spec")
      else .error (.valueError msgLbraceInName)
    else doMarkup gv (.inField (acc ++ [c])) rest

/-- Keyword lookup used by `template.format(**params)`: a missing key raises
`KeyError` carrying the key. -/
def gvStrict (params : List (String × PyValue)) (k : String) : Except FormatError PyValue :=
  match params.lookup k with
  | some v => .ok v
  | none => .error (.keyError k)

/-- Keyword lookup used by `template.format_map(DefaultDict(**params))`: the
`DefaultDict.__missing__` hook returns the literal placeholder text
`"{%s}" % key` for an absent key. -/
def gvLenient (params : List (String × PyValue)) (k : String) : Except FormatError PyValue :=
  match params.lookup k with
  | some v => .ok v
  | none => .ok (.s (lb ++ k ++ rb))

/-- Python `template.format(**params)`. -/
def strFormat (template : String) (params : List (String × PyValue)) :
    Except FormatError String :=
  doMarkup (gvStrict params) .text template.toList

/-- Python `template.format_map(DefaultDict(**params))`, the lenient-mode
substitution of the module. -/
def strFormatMap (template : String) (params : List (String × PyValue)) :
    Except FormatError String :=
  doMarkup (gvLenient params) .text template.toList

/-- A parsed YAML document as `yaml.safe_load` returns it, to the extent the
loader observes it: a string, a mapping (string keys; a key of any other type
can never equal the string `template`, so such entries are dropped without
changing the loader's behaviour), or some other value of which the loader
only ever reads the Python type name. -/
inductive YamlVal where
  | str (v : String)
  | map (entries : List (String × YamlVal))
  | other (typeName : String)

/-- Python `dict` lookup on the entry list of a parsed mapping: the dict is
built by inserting the entries in order, so a later duplicate key overrides
an earlier one. -/
def dictLookup (es : List (String × YamlVal)) (k : String) : Option YamlVal :=
  es.foldl (fun acc p => if p.1 = k then some p.2 else acc) none

/-- Errors the manager can surface to its caller.  `promptNotFoundError` and
`promptRenderError` are the module's own exception classes; `valueError` is
the `ValueError` raised by `_load_template_from_file` on malformed content;
`pyError` is a formatting error that escapes unwrapped (lenient mode). -/
inductive PMError where
  | promptNotFoundError (msg : String)
  | promptRenderError (msg : String)
  | valueError (msg : String)
  | pyError (e : FormatError)
deriving DecidableEq

/-- A directory entry: a regular file with an already-parsed YAML document,
or a subdirectory. -/
inductive FsEntry where
  | file (doc : YamlVal)
  | dir

/-- The contents of the prompt folder: named directory entries, in directory
iteration order. -/
abbrev Folder : Type := List (String × FsEntry)

/-- First entry of the folder with the given name, when present. -/
def fsFind (folder : Folder) (fname : String) : Option FsEntry :=
  (List.find? (fun p => p.1 = fname) folder).map (fun p => p.2)

/-- True when the folder holds a regular file of the given name
(`path.exists() and path.is_file()`). -/
def fsIsFile (folder : Folder) (fname : String) : Bool :=
  match fsFind folder fname with
  | some (.file _) => true
  | _ => false

/-- Document of the named regular file, when present. -/
def fsDoc (folder : Folder) (fname : String) : Option YamlVal :=
  match fsFind folder fname with
  | some (.file d) => some d
  | _ => none

/-- Index of the last dot of a file name, mirroring `str.rfind`. -/
def lastDotIdx (l : List Char) : Option Nat :=
  ((l.enum.filter (fun p => p.2 = '.')).getLast?).map (fun p => p.1)

/-- Extension of a file name per `pathlib.Path.suffix`: the part from the
last dot, provided that dot is neither the first nor the last character. -/
def fileSuffix (fname : String) : String :=
  let l := fname.toList
  match lastDotIdx l with
  | some i => if 0 < i ∧ i + 1 < l.length then String.mk (l.drop i) else ""
  | none => ""

/-- Base name of a file per `pathlib.Path.stem`: the name with its suffix
removed. -/
def fileStem (fname : String) : String :=
  let l := fname.toList
  match lastDotIdx l with
  | some i => if 0 < i ∧ i + 1 < l.length then String.mk (l.take i) else fname
  | none => fname

/-- State of a `PromptManager`: the folder path (used in messages), the
folder's current contents, the strict flag, and the in-memory cache from
prompt name to template string. -/
structure PromptManager where
  folderName : String
  folder : Folder
  strict : Bool
  cache : List (String × String)

/-- Lookup in the cache (`name in self._cache` / `self._cache[name]`). -/
def cacheLookup (cache : List (String × String)) (name : String) : Option String :=
  (List.find? (fun p => p.1 = name) cache).map (fun p => p.2)

/-- Assignment `self._cache[name] = template`: replaces any existing binding
for `name` and binds `name` to `template`. -/
def cacheInsert (cache : List (String × String)) (name template : String) :
    List (String × String) :=
  (name, template) :: cache.filter (fun p => p.1 ≠ name)

/-- Method `list_prompts`: the stems of the regular files of the folder whose
suffix is `.yml` or `.yaml`, collected into a set and sorted. -/
def list_prompts (pm : PromptManager) : List String :=
  (((pm.folder.filter (fun p =>
      fsIsFile pm.folder p.1 ∧ (fileSuffix p.1 = ".yml" ∨ fileSuffix p.1 = ".yaml"))).map
    (fun p => fileStem p.1)).dedup).insertionSort (fun a b => a ≤ b)

/-- Method `_resolve_path`: try `<name>.yml` then `<name>.yaml`, returning
the first candidate that exists as a regular file. -/
def resolve_path (pm : PromptManager) (name : String) : Option String :=
  if fsIsFile pm.folder (name ++ ".yml") then some (name ++ ".yml")
  else if fsIsFile pm.folder (name ++ ".yaml") then some (name ++ ".yaml")
  else none

/-- Method `has_prompt`: true when `_resolve_path` finds a file. -/
def has_prompt (pm : PromptManager) (name : String) : Bool :=
  (resolve_path pm name).isSome

/-- Method `_load_template_from_file`, applied to the parsed document of the
file at `path`: a bare string is the template; a mapping must carry a string
under the key `template`; every other document shape is a `ValueError`
naming the Python type of the document. -/
def load_template_from_file (path : String) (doc : YamlVal) : Except PMError String :=
  match doc with
  | .str s => .ok s
  | .map es =>
    match dictLookup es "template" with
    | none => .error (.valueError ("File " ++ sq ++ path ++ sq ++
        " must contain either a plain string or a " ++ sq ++ "template" ++ sq ++ " key."))
    | some (.str t) => .ok t
    | some _ => .error (.valueError ("" ++ sq ++ "template" ++ sq ++ " in file " ++ sq ++
        path ++ sq ++ " must be a string."))
  | .other tn => .error (.valueError ("Unsupported YAML content type in " ++ sq ++
      path ++ sq ++ ": " ++ tn))

/-- Full path of a file of the folder, as `self._folder / fname` prints. -/
def fullPath (pm : PromptManager) (fname : String) : String :=
  pm.folderName ++ "/" ++ fname

/-- Method `get_template`: serve from the cache when allowed and present;
otherwise resolve the name (raising `PromptNotFoundError` when that fails),
read and parse the file, store the template in the cache and return it.  The
third component of the result lists the paths whose content was read from
disk during the call. -/
def get_template (pm : PromptManager) (name : String) (use_cache : Bool) :
    Except PMError String × PromptManager × List String :=
  match (if use_cache then cacheLookup pm.cache name else none) with
  | some t => (.ok t, pm, [])
  | none =>
    match resolve_path pm name with
    | none => (.error (.promptNotFoundError ("Prompt " ++ sq ++ name ++ sq ++
        " not found in folder " ++ pm.folderName)), pm, [])
    | some fname =>
      match fsDoc pm.folder fname with
      | none => (.error (.promptNotFoundError ("Prompt " ++ sq ++ name ++ sq ++
          " not found in folder " ++ pm.folderName)), pm, [])
      | some doc =>
        match load_template_from_file (fullPath pm fname) doc with
        | .error e => (.error e, pm, [fullPath pm fname])
        | .ok t => (.ok t, { pm with cache := cacheInsert pm.cache name t },
            [fullPath pm fname])

/-- Python `str(e)` of a formatting exception, as interpolated into the
strict-mode wrap message: a `KeyError` prints the repr of its key, the other
exception kinds print their message. -/
def formatErrorStr : FormatError → String
  | .keyError k => pyRepr (.s k)
  | .indexError m => m
  | .valueError m => m
  | .unsupported m => m

/-- Method `render`: fetch the template through `get_template` (cache
enabled), then substitute.  In strict mode a `KeyError` from `str.format`
becomes a `PromptRenderError` naming the missing parameter and the prompt,
and any other formatting failure becomes a `PromptRenderError` wrapping the
cause; in lenient mode `str.format_map` runs with the defaulting dictionary
and its errors propagate unwrapped. -/
def render (pm : PromptManager) (prompt_name : String) (params : List (String × PyValue)) :
    Except PMError String × PromptManager × List String :=
  match get_template pm prompt_name true with
  | (.error e, pm2, reads) => (.error e, pm2, reads)
  | (.ok template, pm2, reads) =>
    if pm.strict then
      match strFormat template params with
      | .ok out => (.ok out, pm2, reads)
      | .error (.keyError missing) =>
        (.error (.promptRenderError ("Missing parameter " ++ sq ++ missing ++ sq ++
          " for prompt " ++ sq ++ prompt_name ++ sq)), pm2, reads)
      | .error e =>
        (.error (.promptRenderError ("Error rendering prompt " ++ sq ++ prompt_name ++
          sq ++ ": " ++ formatErrorStr e)), pm2, reads)
    else
      match strFormatMap template params with
      | .ok out => (.ok out, pm2, reads)
      | .error e => (.error (.pyError e), pm2, reads)

/-- Method `clear_cache`: empty the cache. -/
def clear_cache (pm : PromptManager) : PromptManager :=
  { pm with cache := [] }

/-!
Simple templates.  The substitution claims of the specification speak about
`{key}`-style placeholders; we describe such templates as segment lists
(literal text and bare placeholders) and prove how the formatting machinery
above acts on them.
-/

/-- A segment of a simple template: literal text, or a bare `{key}`
placeholder. -/
inductive Seg where
  | lit (s : String)
  | hole (key : String)
deriving DecidableEq

/-- The template text denoted by a segment list. -/
def segsToString : List Seg → String
  | [] => ""
  | .lit s :: rest => s ++ segsToString rest
  | .hole k :: rest => lb ++ k ++ rb ++ segsToString rest

/-- A literal segment is plain text: it holds no brace. -/
def LitOk (s : String) : Prop :=
  ∀ c ∈ s.toList, ¬ (c = lbraceC ∨ c = rbraceC)

/-- A placeholder key is a simple keyword: nonempty, made of characters with
no special meaning in a replacement field, and not a pure digit string
(which Python would treat as a positional reference). -/
def KeyOk (k : String) : Prop :=
  k.toList ≠ [] ∧
  (∀ c ∈ k.toList, ¬ (c = lbraceC ∨ c = rbraceC ∨ c = '!' ∨ c = ':' ∨
    c = '.' ∨ c = '[' ∨ c = ']')) ∧
  ¬ (k.toList.all Char.isDigit = true)

/-- Well-formedness of one segment. -/
def SegOk : Seg → Prop
  | .lit s => LitOk s
  | .hole k => KeyOk k

/-- Well-formedness of a segment list. -/
def SegsOk (segs : List Seg) : Prop :=
  ∀ seg ∈ segs, SegOk seg

instance : DecidablePred LitOk := fun s => by
  unfold LitOk; infer_instance

instance : DecidablePred KeyOk := fun k => by
  unfold KeyOk; infer_instance

instance : DecidablePred SegOk := fun seg => by
  cases seg <;> simp only [SegOk] <;> infer_instance

instance : DecidablePred SegsOk := fun segs =>
  List.decidableBAll _ segs

/-- Substitution described the way the specification does: each placeholder
whose key is bound in `params` becomes the stringified value; a placeholder
whose key is absent stays as the literal `{key}` text. -/
def substSegs (params : List (String × PyValue)) : List Seg → String
  | [] => ""
  | .lit s :: rest => s ++ substSegs params rest
  | .hole k :: rest =>
    (match params.lookup k with
     | some v => pyStr v
     | none => lb ++ k ++ rb) ++ substSegs params rest

/-- Key of the leftmost placeholder of the template whose key is not bound
in `params`. -/
def firstMissingKey (params : List (String × PyValue)) : List Seg → Option String
  | [] => none
  | .lit _ :: rest => firstMissingKey params rest
  | .hole k :: rest =>
    if (params.lookup k).isSome then firstMissingKey params rest else some k

/-- The outcome of processing a segment list left to right with lookup
function `gv`: the counterpart of `doMarkup` on the segment description. -/
def segsProcess (gv : String → Except FormatError PyValue) : List Seg → Except FormatError String
  | [] => .ok ""
  | .lit s :: rest => (fun t => s ++ t) <$> segsProcess gv rest
  | .hole k :: rest => do
    let v ← gv k
    (fun t => pyStr v ++ t) <$> segsProcess gv rest

theorem except_map_map {ε α β γ : Type} (f : β → γ) (g : α → β) (x : Except ε α) :
    f <$> (g <$> x) = (fun a => f (g a)) <$> x := by
  cases x <;> rfl

theorem string_mk_append (a b : List Char) :
    String.mk (a ++ b) = String.mk a ++ String.mk b := rfl

theorem lbrace_ne_rbrace : lbraceC ≠ rbraceC := by decide

/-- Step equation: a plain character in text state is copied. -/
theorem doMarkup_text_cons (gv : String → Except FormatError PyValue) (c : Char)
    (l : List Char) (h1 : ¬ c = lbraceC) (h2 : ¬ c = rbraceC) :
    doMarkup gv .text (c :: l) =
      (fun s => String.singleton c ++ s) <$> doMarkup gv .text l := by
  simp [doMarkup, h1, h2]

/-- Step equation: an opening brace in text state enters brace state. -/
theorem doMarkup_text_lbrace (gv : String → Except FormatError PyValue) (l : List Char) :
    doMarkup gv .text (lbraceC :: l) = doMarkup gv .afterLbrace l := by
  simp [doMarkup]

/-- Step equation: a field-opening character after an opening brace. -/
theorem doMarkup_afterLbrace_cons (gv : String → Except FormatError PyValue) (c : Char)
    (l : List Char) (h1 : ¬ c = lbraceC) (h2 : ¬ c = rbraceC) :
    doMarkup gv .afterLbrace (c :: l) = doMarkup gv (.inField [c]) l := by
  simp [doMarkup, h1, h2]

/-- Step equation: a plain character inside a field is accumulated. -/
theorem doMarkup_inField_cons (gv : String → Except FormatError PyValue) (acc : List Char)
    (c : Char) (l : List Char) (h1 : ¬ c = lbraceC) (h2 : ¬ c = rbraceC) :
    doMarkup gv (.inField acc) (c :: l) = doMarkup gv (.inField (acc ++ [c])) l := by
  simp [doMarkup, h1, h2]

/-- Step equation: the closing brace of a replacement field processes it. -/
theorem doMarkup_inField_close (gv : String → Except FormatError PyValue) (acc : List Char)
    (l : List Char) :
    doMarkup gv (.inField acc) (rbraceC :: l) =
      (do
        let f ← parseFieldChars acc
        let s ← processField gv f
        (fun t => s ++ t) <$> doMarkup gv .text l) := by
  simp [doMarkup]

/-- Scanning literal text: brace-free characters are copied verbatim. -/
theorem doMarkup_lit (gv : String → Except FormatError PyValue) (cs l : List Char)
    (h : ∀ c ∈ cs, ¬ (c = lbraceC ∨ c = rbraceC)) :
    doMarkup gv .text (cs ++ l) = (fun s => String.mk cs ++ s) <$> doMarkup gv .text l := by
  induction cs with
  | nil =>
    cases hres : doMarkup gv .text l <;> simp [hres, Functor.map, Except.map]
  | cons c cs ih =>
    have hc := h c (by simp)
    have hc1 : ¬ c = lbraceC := fun hx => hc (Or.inl hx)
    have hc2 : ¬ c = rbraceC := fun hx => hc (Or.inr hx)
    have ih2 := ih (fun x hx => h x (by simp [hx]))
    rw [List.cons_append, doMarkup_text_cons gv c _ hc1 hc2, ih2, except_map_map]
    cases hres : doMarkup gv .text l <;> simp [Functor.map, Except.map]
    exact rfl

/-- Accumulating the characters of a replacement field. -/
theorem doMarkup_inField_acc (gv : String → Except FormatError PyValue)
    (acc ks l : List Char)
    (h : ∀ c ∈ ks, ¬ (c = lbraceC ∨ c = rbraceC)) :
    doMarkup gv (.inField acc) (ks ++ rbraceC :: l) =
      doMarkup gv (.inField (acc ++ ks)) (rbraceC :: l) := by
  induction ks generalizing acc with
  | nil => simp
  | cons c cs ih =>
    have hc := h c (by simp)
    have hc1 : ¬ c = lbraceC := fun hx => hc (Or.inl hx)
    have hc2 : ¬ c = rbraceC := fun hx => hc (Or.inr hx)
    rw [List.cons_append, doMarkup_inField_cons gv acc c _ hc1 hc2,
      ih (acc ++ [c]) (fun x hx => h x (by simp [hx])), List.append_assoc,
      List.singleton_append]

/-- Splitting a field text that holds no stopper leaves it whole. -/
theorem splitFieldName_no_stop (ks : List Char)
    (h : ∀ c ∈ ks, ¬ (c = '!' ∨ c = ':')) :
    splitFieldName ks = (ks, []) := by
  induction ks with
  | nil => rfl
  | cons c cs ih =>
    have hc := h c (by simp)
    simp only [splitFieldName, if_neg hc, ih (fun x hx => h x (by simp [hx]))]

/-- Formatting any modelled value against the empty format spec yields its
Python string form. -/
theorem formatValue_nil (v : PyValue) : formatValue v [] = .ok (pyStr v) := by
  cases v with
  | s str =>
    have h1 : formatValue (.s str) [] =
        if 0 ≤ str.length then Except.ok str
        else Except.ok (str ++ padStr ' ' (0 - str.length)) := rfl
    rw [h1, if_pos (Nat.zero_le _)]
    rfl
  | i n =>
    have h0 : formatValue (.i n) [] =
        if 0 ≤ ((if n < 0 then "-" else "") ++ toString n.natAbs).length
        then Except.ok ((if n < 0 then "-" else "") ++ toString n.natAbs)
        else Except.ok (padStr ' '
            (0 - ((if n < 0 then "-" else "") ++ toString n.natAbs).length) ++
          ((if n < 0 then "-" else "") ++ toString n.natAbs)) := rfl
    rw [h0, if_pos (Nat.zero_le _)]
    cases n with
    | ofNat m =>
      rw [if_neg (by exact Int.not_lt.mpr (Int.ofNat_nonneg m))]
      rfl
    | negSucc m =>
      rw [if_pos (Int.negSucc_lt_zero m)]
      rfl


theorem toList_eq_data (s : String) : s.toList = s.data := rfl

/-- Characters of a simple keyword field name: none of the characters that
carry special meaning in a replacement field. -/
def PlainNameChars (ks : List Char) : Prop :=
  ∀ c ∈ ks, ¬ (c = lbraceC ∨ c = rbraceC ∨ c = '!' ∨ c = ':' ∨
    c = '.' ∨ c = '[' ∨ c = ']')

/-- Processing a bare `{key}` field with a simple keyword name: look the key
up and take the Python string form of its value. -/
theorem processField_simple (gv : String → Except FormatError PyValue) (ks : List Char)
    (hne : ks ≠ []) (hchars : PlainNameChars ks)
    (hdig : ¬ ks.all Char.isDigit = true) :
    processField gv ⟨ks, none, []⟩ = (fun v => pyStr v) <$> gv (String.mk ks) := by
  have hacc : ks.any (fun c => c = '.' ∨ c = '[' ∨ c = ']') = false := by
    rw [List.any_eq_false]
    intro c hc
    have h2 := hchars c hc
    simp only [decide_eq_true_eq]
    intro h
    rcases h with h | h | h <;> simp [h] at h2
  have hpos : ¬ (ks.isEmpty = true ∨ ks.all Char.isDigit = true) := by
    rintro (h | h)
    · exact hne (by simpa using h)
    · exact hdig h
  show (do
      let v ← getFieldValue gv ks
      let v2 ← convertField v none
      formatValue v2 []) = (fun v => pyStr v) <$> gv (String.mk ks)
  rw [getFieldValue, if_neg (by rw [hacc]; simp), if_neg hpos]
  cases hres : gv (String.mk ks) with
  | error e => simp [hres, bind, Except.bind, Functor.map, Except.map]
  | ok v =>
    simp [hres, bind, Except.bind, convertField, Functor.map, Except.map, formatValue_nil]

/-- Scanning a whole bare placeholder `{key}` in text state. -/
theorem doMarkup_hole (gv : String → Except FormatError PyValue) (ks : List Char)
    (l : List Char) (hne : ks ≠ []) (hchars : PlainNameChars ks)
    (hdig : ¬ ks.all Char.isDigit = true) :
    doMarkup gv .text (lbraceC :: (ks ++ rbraceC :: l)) =
      (do
        let v ← gv (String.mk ks)
        (fun t => pyStr v ++ t) <$> doMarkup gv .text l) := by
  obtain ⟨c, cs, hcs⟩ : ∃ c cs, ks = c :: cs := by
    cases h : ks with
    | nil => exact absurd h hne
    | cons c cs => exact ⟨c, cs, rfl⟩
  have hcmem : c ∈ ks := by rw [hcs]; simp
  have hc1 : ¬ c = lbraceC := fun hx => hchars c hcmem (by simp [hx])
  have hc2 : ¬ c = rbraceC := fun hx => hchars c hcmem (by simp [hx])
  have hcs2 : ∀ x ∈ cs, ¬ (x = lbraceC ∨ x = rbraceC) := by
    intro x hx hor
    have hmem : x ∈ ks := by rw [hcs]; simp [hx]
    rcases hor with h | h <;> exact hchars x hmem (by simp [h])
  rw [doMarkup_text_lbrace, hcs, List.cons_append,
    doMarkup_afterLbrace_cons gv c _ hc1 hc2,
    doMarkup_inField_acc gv [c] cs l hcs2, List.singleton_append, ← hcs,
    doMarkup_inField_close]
  have hsplit : splitFieldName ks = (ks, []) := by
    apply splitFieldName_no_stop
    intro x hx hor
    rcases hor with h | h <;> exact hchars x hx (by simp [h])
  have hparse : parseFieldChars ks = .ok ⟨ks, none, []⟩ := by
    rw [parseFieldChars, hsplit]
  rw [hparse]
  have hproc := processField_simple gv ks hne hchars hdig
  cases hres : gv (String.mk ks) with
  | error e =>
    simp only [hres, Functor.map, Except.map] at hproc
    simp [hproc, bind, Except.bind, hres]
  | ok v =>
    simp only [hres, Functor.map, Except.map] at hproc
    simp [hproc, bind, Except.bind, hres]

/-- Keys of a well-formed segment list satisfy the name-character side
conditions. -/
theorem segsOk_hole {segs : List Seg} (h : SegsOk segs) {k : String}
    (hk : Seg.hole k ∈ segs) :
    k.toList ≠ [] ∧ PlainNameChars k.toList ∧ ¬ k.toList.all Char.isDigit = true := by
  have := h (Seg.hole k) hk
  exact this

/-- Main scanning theorem: on a well-formed simple template, the formatting
machinery acts segment by segment. -/
theorem doMarkup_segs (gv : String → Except FormatError PyValue) (segs : List Seg)
    (h : SegsOk segs) :
    doMarkup gv .text (segsToString segs).toList = segsProcess gv segs := by
  induction segs with
  | nil => rfl
  | cons seg rest ih =>
    have hseg : SegOk seg := h seg (by simp)
    have hrest : SegsOk rest := fun s hs => h s (by simp [hs])
    have ih2 := ih hrest
    cases seg with
    | lit s =>
      have hx : (segsToString (.lit s :: rest)).toList =
          s.toList ++ (segsToString rest).toList := rfl
      rw [hx, doMarkup_lit gv _ _ hseg, ih2]
      have hmk : String.mk s.toList = s := rfl
      rw [hmk]
      rfl
    | hole k =>
      have hx : (segsToString (.hole k :: rest)).toList =
          lbraceC :: (k.toList ++ rbraceC :: (segsToString rest).toList) := by
        show (lb ++ k ++ rb ++ segsToString rest).data = _
        simp [lb, rb, String.singleton, toList_eq_data]
      obtain ⟨h1, h2, h3⟩ : k.toList ≠ [] ∧ PlainNameChars k.toList ∧
          ¬ k.toList.all Char.isDigit = true := hseg
      rw [hx, doMarkup_hole gv k.toList _ h1 h2 h3, ih2]
      have hmk : String.mk k.toList = k := rfl
      rw [hmk]
      rfl

/-- When every placeholder key of the template is bound, strict lookup
processes the segments to the substituted text. -/
theorem segsProcess_strict_all_present (params : List (String × PyValue)) (segs : List Seg)
    (hall : ∀ k, Seg.hole k ∈ segs → (params.lookup k).isSome) :
    segsProcess (gvStrict params) segs = .ok (substSegs params segs) := by
  induction segs with
  | nil => rfl
  | cons seg rest ih =>
    have ih2 := ih (fun k hk => hall k (by simp [hk]))
    cases seg with
    | lit s => simp [segsProcess, ih2, substSegs, Functor.map, Except.map]
    | hole k =>
      have hk := hall k (by simp)
      obtain ⟨v, hv⟩ := Option.isSome_iff_exists.mp hk
      simp [segsProcess, gvStrict, hv, bind, Except.bind, ih2, substSegs, Functor.map,
        Except.map]

/-- Strict lookup stops at the first missing key with a `KeyError`. -/
theorem segsProcess_strict_missing (params : List (String × PyValue)) (segs : List Seg)
    (k : String) (hmiss : firstMissingKey params segs = some k) :
    segsProcess (gvStrict params) segs = .error (.keyError k) := by
  induction segs with
  | nil => simp [firstMissingKey] at hmiss
  | cons seg rest ih =>
    cases seg with
    | lit s =>
      rw [firstMissingKey] at hmiss
      simp [segsProcess, ih hmiss, Functor.map, Except.map]
    | hole key =>
      rw [firstMissingKey] at hmiss
      by_cases hkey : (params.lookup key).isSome
      · rw [if_pos hkey] at hmiss
        obtain ⟨v, hv⟩ := Option.isSome_iff_exists.mp hkey
        simp [segsProcess, gvStrict, hv, bind, Except.bind, ih hmiss, Functor.map, Except.map]
      · rw [if_neg hkey] at hmiss
        have hnone : params.lookup key = none := Option.not_isSome_iff_eq_none.mp hkey
        have hkeq : key = k := by simpa using hmiss
        subst hkeq
        simp [segsProcess, gvStrict, hnone, bind, Except.bind]

/-- Lenient lookup never fails and produces the substituted text with
unresolved placeholders kept verbatim. -/
theorem segsProcess_lenient (params : List (String × PyValue)) (segs : List Seg) :
    segsProcess (gvLenient params) segs = .ok (substSegs params segs) := by
  induction segs with
  | nil => rfl
  | cons seg rest ih =>
    cases seg with
    | lit s => simp [segsProcess, ih, substSegs, Functor.map, Except.map]
    | hole k =>
      cases hv : params.lookup k with
      | some v =>
        simp [segsProcess, gvLenient, hv, bind, Except.bind, ih, substSegs, Functor.map,
          Except.map, pyStr]
      | none =>
        simp [segsProcess, gvLenient, hv, bind, Except.bind, ih, substSegs, Functor.map,
          Except.map, pyStr]

/-- The two substitution entry points on a simple template. -/
theorem strFormat_segs (params : List (String × PyValue)) (segs : List Seg)
    (h : SegsOk segs) :
    strFormat (segsToString segs) params = segsProcess (gvStrict params) segs := by
  rw [strFormat, doMarkup_segs _ _ h]

theorem strFormatMap_segs (params : List (String × PyValue)) (segs : List Seg)
    (h : SegsOk segs) :
    strFormatMap (segsToString segs) params = .ok (substSegs params segs) := by
  rw [strFormatMap, doMarkup_segs _ _ h, segsProcess_lenient]

/-- Keys of the placeholders of a segment list, in order. -/
def segHoles : List Seg → List String
  | [] => []
  | .lit _ :: rest => segHoles rest
  | .hole k :: rest => k :: segHoles rest

theorem segHoles_mem {segs : List Seg} {k : String} (h : Seg.hole k ∈ segs) :
    k ∈ segHoles segs := by
  induction segs with
  | nil => cases h
  | cons seg rest ih =>
    cases seg with
    | lit s =>
      rw [segHoles]
      rcases List.mem_cons.mp h with h1 | h1
      · cases h1
      · exact ih h1
    | hole key =>
      rw [segHoles]
      rcases List.mem_cons.mp h with h1 | h1
      · injection h1 with h2
        simp [h2]
      · simp [ih h1]

/-!
Behaviour of `get_template` per branch of its contract.
-/

/-- A successfully resolved name is an existing regular file. -/
theorem resolve_path_isFile (pm : PromptManager) (name f : String)
    (h : resolve_path pm name = some f) : fsIsFile pm.folder f = true := by
  rw [resolve_path] at h
  by_cases h1 : fsIsFile pm.folder (name ++ ".yml") = true
  · rw [if_pos h1] at h
    injection h with h2
    rwa [← h2]
  · rw [if_neg h1] at h
    by_cases h2 : fsIsFile pm.folder (name ++ ".yaml") = true
    · rw [if_pos h2] at h
      injection h with h3
      rwa [← h3]
    · rw [if_neg h2] at h
      cases h

/-- An existing regular file has a parsed document. -/
theorem fsDoc_of_isFile (folder : Folder) (f : String) (h : fsIsFile folder f = true) :
    ∃ d, fsDoc folder f = some d := by
  rw [fsIsFile] at h
  cases hf : fsFind folder f with
  | none => rw [hf] at h; cases h
  | some e =>
    cases e with
    | file d => exact ⟨d, by rw [fsDoc, hf]⟩
    | dir => rw [hf] at h; cases h

/-- Cache hit: the cached string is returned, the state is untouched, the
disk is not read. -/
theorem get_template_cache_hit (pm : PromptManager) (name t : String)
    (h : cacheLookup pm.cache name = some t) :
    get_template pm name true = (.ok t, pm, []) := by
  simp [get_template, h]

/-- Unresolvable name: `PromptNotFoundError`, untouched state, no read. -/
theorem get_template_notfound (pm : PromptManager) (name : String) (uc : Bool)
    (hc : (if uc then cacheLookup pm.cache name else none) = none)
    (hr : resolve_path pm name = none) :
    get_template pm name uc =
      (.error (.promptNotFoundError ("Prompt " ++ sq ++ name ++ sq ++
        " not found in folder " ++ pm.folderName)), pm, []) := by
  simp [get_template, hc, hr]

/-- Cache miss with a resolvable name and a loadable document: the template
is returned and cached, and exactly that file is read. -/
theorem get_template_loads (pm : PromptManager) (name : String) (uc : Bool)
    (f t : String) (doc : YamlVal)
    (hc : (if uc then cacheLookup pm.cache name else none) = none)
    (hr : resolve_path pm name = some f)
    (hd : fsDoc pm.folder f = some doc)
    (hl : load_template_from_file (fullPath pm f) doc = .ok t) :
    get_template pm name uc =
      (.ok t, { pm with cache := cacheInsert pm.cache name t }, [fullPath pm f]) := by
  simp [get_template, hc, hr, hd, hl]

/-- Cache miss with a resolvable name whose document fails validation: the
error is surfaced, the state is untouched, and exactly that file was read. -/
theorem get_template_load_error (pm : PromptManager) (name : String) (uc : Bool)
    (f : String) (doc : YamlVal) (e : PMError)
    (hc : (if uc then cacheLookup pm.cache name else none) = none)
    (hr : resolve_path pm name = some f)
    (hd : fsDoc pm.folder f = some doc)
    (hl : load_template_from_file (fullPath pm f) doc = .error e) :
    get_template pm name uc = (.error e, pm, [fullPath pm f]) := by
  simp [get_template, hc, hr, hd, hl]

/-!
The claims.
-/

/-- Concrete store for the strict round trip: a bare-string file `hi.yml`
holding `Hi {n}!`. -/
def pmC1 : PromptManager :=
  { folderName := "prompts"
    folder := [("hi.yml", .file (.str ("Hi " ++ lb ++ "n" ++ rb ++ "!")))]
    strict := true
    cache := [] }

/-- C1.  In strict mode, `render(name, params)` substitutes every
`{key}`-style placeholder of a bare-string template file with the
stringified value of `params[key]`: for any store whose file for `name`
holds the simple template described by `segs`, with every placeholder key
bound in `params`, rendering returns the text with each `{key}` replaced by
the Python string form of its value (`substSegs`).  Instantiated at the
round-trip example in the witness: template `Hi {n}!` with `n = "Bob"`
renders to `Hi Bob!`. -/
theorem render_strict_substitutes_all_placeholders
    (pm : PromptManager) (name : String) (segs : List Seg)
    (params : List (String × PyValue)) (f : String)
    (hstrict : pm.strict = true)
    (hcache : cacheLookup pm.cache name = none)
    (hres : resolve_path pm name = some f)
    (hdoc : fsDoc pm.folder f = some (.str (segsToString segs)))
    (hok : SegsOk segs)
    (hall : ∀ k ∈ segHoles segs, (params.lookup k).isSome) :
    (render pm name params).1 = .ok (substSegs params segs) := by
  have hload : load_template_from_file (fullPath pm f) (.str (segsToString segs)) =
      .ok (segsToString segs) := rfl
  have hget := get_template_loads pm name true f (segsToString segs) _
    (by simp [hcache]) hres hdoc hload
  rw [render, hget]
  simp only [hstrict, if_true]
  rw [strFormat_segs _ _ hok,
    segsProcess_strict_all_present _ _ (fun k hk => hall k (segHoles_mem hk))]

/-- Witness for C1: the spec's round-trip example. -/
theorem render_strict_substitutes_all_placeholders_witness :
    (render pmC1 "hi" [("n", PyValue.s "Bob")]).1 = .ok "Hi Bob!" :=
  render_strict_substitutes_all_placeholders pmC1 "hi"
    [.lit "Hi ", .hole "n", .lit "!"] [("n", PyValue.s "Bob")] "hi.yml"
    rfl rfl rfl rfl (by decide) (by decide)

/-- Concrete store for the strict missing-parameter example. -/
def pmC3 : PromptManager :=
  { folderName := "prompts"
    folder := [("hi.yml", .file (.str ("Hi " ++ lb ++ "n" ++ rb ++ "!")))]
    strict := true
    cache := [] }

/-- C3.  In strict mode, when some placeholder key of the template is absent
from `params`, `render` fails with a `PromptRenderError` whose message names
the first missing key (`firstMissingKey`, the key of the leftmost unresolved
placeholder) and the prompt name. -/
theorem render_strict_missing_key_error
    (pm : PromptManager) (name : String) (segs : List Seg)
    (params : List (String × PyValue)) (f k : String)
    (hstrict : pm.strict = true)
    (hcache : cacheLookup pm.cache name = none)
    (hres : resolve_path pm name = some f)
    (hdoc : fsDoc pm.folder f = some (.str (segsToString segs)))
    (hok : SegsOk segs)
    (hmiss : firstMissingKey params segs = some k) :
    (render pm name params).1 =
      .error (.promptRenderError ("Missing parameter " ++ sq ++ k ++ sq ++
        " for prompt " ++ sq ++ name ++ sq)) := by
  have hload : load_template_from_file (fullPath pm f) (.str (segsToString segs)) =
      .ok (segsToString segs) := rfl
  have hget := get_template_loads pm name true f (segsToString segs) _
    (by simp [hcache]) hres hdoc hload
  rw [render, hget]
  simp only [hstrict, if_true]
  rw [strFormat_segs _ _ hok, segsProcess_strict_missing _ _ k hmiss]

/-- Witness for C3: rendering `Hi {n}!` with no parameters names `n` and the
prompt `hi`. -/
theorem render_strict_missing_key_error_witness :
    (render pmC3 "hi" []).1 =
      .error (.promptRenderError ("Missing parameter " ++ sq ++ "n" ++ sq ++
        " for prompt " ++ sq ++ "hi" ++ sq)) :=
  render_strict_missing_key_error pmC3 "hi" [.lit "Hi ", .hole "n", .lit "!"] []
    "hi.yml" "n" rfl rfl rfl rfl (by decide) (by decide)

/-- Loading errors are always `ValueError`s. -/
theorem load_template_error_is_valueError (path : String) (doc : YamlVal) (e : PMError)
    (h : load_template_from_file path doc = .error e) : ∃ m, e = .valueError m := by
  cases doc with
  | str s => cases h
  | other tn =>
    rw [load_template_from_file] at h
    injection h with h2
    exact ⟨_, h2.symm⟩
  | map es =>
    rw [load_template_from_file] at h
    cases hl : dictLookup es "template" with
    | none =>
      simp only [hl] at h
      injection h with h2
      exact ⟨_, h2.symm⟩
    | some v =>
      simp only [hl] at h
      cases v with
      | str t => cases h
      | map es2 =>
        injection h with h2
        exact ⟨_, h2.symm⟩
      | other tn =>
        injection h with h2
        exact ⟨_, h2.symm⟩

/-- `get_template` never produces a `PromptRenderError`. -/
theorem get_template_no_render_error (pm : PromptManager) (name : String) (uc : Bool)
    (m : String) : (get_template pm name uc).1 ≠ .error (.promptRenderError m) := by
  intro h
  rw [get_template] at h
  cases hc : (if uc then cacheLookup pm.cache name else none) with
  | some t => simp only [hc] at h; cases h
  | none =>
    simp only [hc] at h
    cases hr : resolve_path pm name with
    | none =>
      simp only [hr] at h
      injection h with h2
      exact PMError.noConfusion h2
    | some f =>
      simp only [hr] at h
      cases hd : fsDoc pm.folder f with
      | none =>
        simp only [hd] at h
        injection h with h2
        exact PMError.noConfusion h2
      | some doc =>
        simp only [hd] at h
        cases hl : load_template_from_file (fullPath pm f) doc with
        | ok t => simp only [hl] at h; cases h
        | error e =>
          simp only [hl] at h
          obtain ⟨msg, rfl⟩ := load_template_error_is_valueError _ _ _ hl
          injection h with h2
          exact PMError.noConfusion h2

/-- Concrete lenient store whose template is the single placeholder with a
conversion, `{n!r}`. -/
def pmC2 : PromptManager :=
  { folderName := "prompts"
    folder := [("t.yml", .file (.str (lb ++ "n!r" ++ rb)))]
    strict := false
    cache := [] }

/-- Counterexample to C2 as stated.  The claim says every placeholder whose
key is absent from `params` is left verbatim in the output as `{key}`.  For
the template `{n!r}` with empty `params`, lenient rendering succeeds but
returns `'{n}'` (the `DefaultDict` hands back the literal `{n}`, and the
`!r` conversion then wraps it in repr quotes), which is not the template
left verbatim. -/
theorem render_lenient_not_verbatim_counterexample :
    pmC2.strict = false ∧
    fsDoc pmC2.folder "t.yml" = some (.str (lb ++ "n!r" ++ rb)) ∧
    (render pmC2 "t" []).1 = .ok (sq ++ lb ++ "n" ++ rb ++ sq) ∧
    (sq ++ lb ++ "n" ++ rb ++ sq) ≠ lb ++ "n!r" ++ rb := by
  refine ⟨rfl, rfl, rfl, by decide⟩

/-- C2 (amended).  In lenient mode, for templates made of literal text and
bare `{key}` placeholders (no conversion and no format specification),
render substitutes every placeholder whose key is present in `params` and
leaves every placeholder whose key is absent verbatim as `{key}`; and
lenient rendering never raises a `PromptRenderError` for any input. -/
theorem render_lenient_passthrough_amended :
    (∀ (pm : PromptManager) (name : String) (segs : List Seg)
        (params : List (String × PyValue)) (f : String),
      pm.strict = false →
      cacheLookup pm.cache name = none →
      resolve_path pm name = some f →
      fsDoc pm.folder f = some (.str (segsToString segs)) →
      SegsOk segs →
      (render pm name params).1 = .ok (substSegs params segs)) ∧
    (∀ (pm : PromptManager) (name : String) (params : List (String × PyValue))
        (m : String),
      pm.strict = false →
      (render pm name params).1 ≠ .error (.promptRenderError m)) := by
  constructor
  · intro pm name segs params f hstrict hcache hres hdoc hok
    have hload : load_template_from_file (fullPath pm f) (.str (segsToString segs)) =
        .ok (segsToString segs) := rfl
    have hget := get_template_loads pm name true f (segsToString segs) _
      (by simp [hcache]) hres hdoc hload
    rw [render, hget]
    simp only [hstrict, Bool.false_eq_true, if_false]
    rw [strFormatMap_segs _ _ hok]
  · intro pm name params m hstrict h
    rw [render] at h
    rcases hget : get_template pm name true with ⟨r, st, rds⟩
    rw [hget] at h
    cases r with
    | error e =>
      simp only [] at h
      exact get_template_no_render_error pm name true m (by rw [hget]; exact h)
    | ok t =>
      simp only [hstrict, Bool.false_eq_true, if_false] at h
      cases hsf : strFormatMap t params with
      | ok out => simp only [hsf] at h; cases h
      | error e =>
        simp only [hsf] at h
        injection h with h2
        exact PMError.noConfusion h2

/-- Concrete lenient store with template `Hi {n}!`. -/
def pmC2b : PromptManager :=
  { folderName := "prompts"
    folder := [("g.yml", .file (.str ("Hi " ++ lb ++ "n" ++ rb ++ "!")))]
    strict := false
    cache := [] }

/-- Witness for the amended C2: with no parameters, `Hi {n}!` renders to
itself, the unresolved placeholder passing through. -/
theorem render_lenient_passthrough_amended_witness :
    (render pmC2b "g" []).1 = .ok ("Hi " ++ lb ++ "n" ++ rb ++ "!") :=
  render_lenient_passthrough_amended.1 pmC2b "g" [.lit "Hi ", .hole "n", .lit "!"] []
    "g.yml" rfl rfl rfl rfl (by decide)

/-- C10.  Formatting failures reach the caller unwrapped in lenient mode:
when the substitution step fails (for example on a template with an
unmatched brace), lenient `render` surfaces the underlying formatting error
itself, while the strict branch is the only one that wraps substitution
failures into `PromptRenderError`. -/
theorem render_lenient_unwrapped_format_errors :
    (∀ (pm : PromptManager) (name : String) (params : List (String × PyValue))
        (t : String) (st : PromptManager) (rds : List String) (e : FormatError),
      pm.strict = false →
      get_template pm name true = (.ok t, st, rds) →
      strFormatMap t params = .error e →
      (render pm name params).1 = .error (.pyError e)) ∧
    (∀ (pm : PromptManager) (name : String) (params : List (String × PyValue))
        (t : String) (st : PromptManager) (rds : List String) (e : FormatError),
      pm.strict = true →
      get_template pm name true = (.ok t, st, rds) →
      strFormat t params = .error e →
      ∃ m, (render pm name params).1 = .error (.promptRenderError m)) := by
  constructor
  · intro pm name params t st rds e hstrict hget hsf
    rw [render, hget]
    simp only [hstrict, Bool.false_eq_true, if_false]
    rw [hsf]
  · intro pm name params t st rds e hstrict hget hsf
    rw [render, hget]
    simp only [hstrict, if_true]
    rw [hsf]
    cases e with
    | keyError k => exact ⟨_, rfl⟩
    | indexError m => exact ⟨_, rfl⟩
    | valueError m => exact ⟨_, rfl⟩
    | unsupported m => exact ⟨_, rfl⟩

/-- Concrete lenient store whose template is a single unmatched opening
brace. -/
def pmC10 : PromptManager :=
  { folderName := "prompts"
    folder := [("b.yml", .file (.str lb))]
    strict := false
    cache := [] }

/-- Concrete strict twin of the store above. -/
def pmC10s : PromptManager :=
  { folderName := "prompts"
    folder := [("b.yml", .file (.str lb))]
    strict := true
    cache := [] }

/-- Witness for C10: the unmatched-brace template raises the raw formatting
`ValueError` in lenient mode, and a `PromptRenderError` in strict mode. -/
theorem render_lenient_unwrapped_format_errors_witness :
    (render pmC10 "b" []).1 = .error (.pyError (.valueError msgSingleLbrace)) ∧
    ∃ m, (render pmC10s "b" []).1 = .error (.promptRenderError m) :=
  ⟨render_lenient_unwrapped_format_errors.1 pmC10 "b" [] lb
      { pmC10 with cache := [("b", lb)] } ["prompts/b.yml"]
      (.valueError msgSingleLbrace) rfl rfl rfl,
   render_lenient_unwrapped_format_errors.2 pmC10s "b" [] lb
      { pmC10s with cache := [("b", lb)] } ["prompts/b.yml"]
      (.valueError msgSingleLbrace) rfl rfl rfl⟩

/-- A cache hit comes from an entry of the cache list. -/
theorem cacheLookup_some_mem {cache : List (String × String)} {name t : String}
    (h : cacheLookup cache name = some t) : (name, t) ∈ cache := by
  rw [cacheLookup] at h
  cases hf : List.find? (fun p => p.1 = name) cache with
  | none => rw [hf] at h; cases h
  | some p =>
    rw [hf] at h
    injection h with h2
    have hp := List.find?_some hf
    have hmem := List.mem_of_find?_eq_some hf
    have h1 : p.1 = name := by simpa using hp
    cases p with
    | mk a b =>
      simp only at h1 h2
      rw [h1, h2] at hmem
      exact hmem

/-- The NotFound outcomes of `get_template` are exactly the calls that miss
the cache and fail to resolve. -/
theorem get_template_notfound_iff (pm : PromptManager) (name : String) (uc : Bool) :
    (∃ m, (get_template pm name uc).1 = .error (.promptNotFoundError m)) ↔
      ((if uc then cacheLookup pm.cache name else none) = none ∧
        resolve_path pm name = none) := by
  constructor
  · rintro ⟨m, h⟩
    rw [get_template] at h
    cases hc : (if uc then cacheLookup pm.cache name else none) with
    | some t => simp only [hc] at h; cases h
    | none =>
      refine ⟨rfl, ?_⟩
      simp only [hc] at h
      cases hr : resolve_path pm name with
      | none => rfl
      | some f =>
        simp only [hr] at h
        obtain ⟨doc, hdoc⟩ := fsDoc_of_isFile pm.folder f (resolve_path_isFile pm name f hr)
        simp only [hdoc] at h
        cases hl : load_template_from_file (fullPath pm f) doc with
        | ok t => simp only [hl] at h; cases h
        | error e =>
          simp only [hl] at h
          obtain ⟨msg, rfl⟩ := load_template_error_is_valueError _ _ _ hl
          injection h with h2
          exact PMError.noConfusion h2
  · rintro ⟨hc, hr⟩
    exact ⟨_, by rw [get_template_notfound pm name uc hc hr]⟩

/-- Concrete store with a stale cache entry: the cache binds `x` but the
folder holds no file for it. -/
def pmC4 : PromptManager :=
  { folderName := "prompts"
    folder := []
    strict := true
    cache := [("x", "t")] }

/-- Counterexample to C4 as stated over every store state: with a stale
cache entry for `x` and no file on disk, `has_prompt` is false while
`get_template` (which consults the cache first) succeeds without a
NotFound error. -/
theorem has_prompt_get_template_counterexample :
    has_prompt pmC4 "x" = false ∧ (get_template pmC4 "x" true).1 = .ok "t" :=
  ⟨rfl, rfl⟩

/-- C4 (amended).  Provided every cached name still resolves to a file — in
particular in every state reachable without external modification of the
folder — `has_prompt name` is true exactly when `get_template name` does not
fail with a `PromptNotFoundError`; and `has_prompt` is read-only: it returns
the same answer whatever the cache and mode hold and touches no state. -/
theorem has_prompt_iff_get_template_not_notfound
    (pm : PromptManager) (name : String)
    (hcoh : ∀ p ∈ pm.cache, (resolve_path pm p.1).isSome = true) :
    (has_prompt pm name = true ↔
      ∀ m, (get_template pm name true).1 ≠ .error (.promptNotFoundError m)) ∧
    (∀ c s, has_prompt { pm with cache := c, strict := s } name = has_prompt pm name) := by
  refine ⟨⟨?_, ?_⟩, fun c s => rfl⟩
  · intro hhp m hne
    have hres : (resolve_path pm name).isSome = true := by rwa [has_prompt] at hhp
    have := (get_template_notfound_iff pm name true).mp ⟨m, hne⟩
    rw [this.2] at hres
    cases hres
  · intro hforall
    by_contra hhp
    have hres : resolve_path pm name = none := by
      rw [has_prompt] at hhp
      cases hr : resolve_path pm name with
      | none => rfl
      | some f => rw [hr] at hhp; simp at hhp
    have hcl : cacheLookup pm.cache name = none := by
      cases hc : cacheLookup pm.cache name with
      | none => rfl
      | some t =>
        have hmem := cacheLookup_some_mem hc
        have hsome := hcoh _ hmem
        rw [hres] at hsome
        cases hsome
    have hnf := get_template_notfound pm name true (by simp [hcl]) hres
    exact hforall _ (by rw [hnf])

/-- Concrete coherent store: one file `w.yml`, empty cache. -/
def pmC4b : PromptManager :=
  { folderName := "prompts"
    folder := [("w.yml", .file (.str "W"))]
    strict := true
    cache := [] }

/-- Witness for the amended C4 at a coherent store. -/
theorem has_prompt_iff_get_template_not_notfound_witness :
    (has_prompt pmC4b "w" = true ↔
      ∀ m, (get_template pmC4b "w" true).1 ≠ .error (.promptNotFoundError m)) ∧
    has_prompt pmC4b "w" = true ∧ has_prompt pmC4b "v" = false :=
  ⟨(has_prompt_iff_get_template_not_notfound pmC4b "w" (by intro p hp; cases hp)).1,
    rfl, rfl⟩

/-- Inserting into the cache binds the name to the new template. -/
theorem cacheLookup_cacheInsert (cache : List (String × String)) (name t : String) :
    cacheLookup (cacheInsert cache name t) name = some t := by
  simp [cacheLookup, cacheInsert, List.find?]

/-- C5.  The `get_template` contract: a cache hit (with `use_cache` true)
returns the cached string with no disk read and an unchanged state; a miss
that fails to resolve raises `PromptNotFoundError` naming the prompt and the
searched folder; a miss that resolves and loads returns the template, reads
exactly the resolved file, and stores the template in the cache under the
name, an insertion that overwrites any prior binding. -/
theorem get_template_contract (pm : PromptManager) (name : String) :
    (∀ t, cacheLookup pm.cache name = some t →
      get_template pm name true = (.ok t, pm, [])) ∧
    (∀ uc, (if uc then cacheLookup pm.cache name else none) = none →
      resolve_path pm name = none →
      get_template pm name uc =
        (.error (.promptNotFoundError ("Prompt " ++ sq ++ name ++ sq ++
          " not found in folder " ++ pm.folderName)), pm, [])) ∧
    (∀ uc f doc t, (if uc then cacheLookup pm.cache name else none) = none →
      resolve_path pm name = some f →
      fsDoc pm.folder f = some doc →
      load_template_from_file (fullPath pm f) doc = .ok t →
      get_template pm name uc =
        (.ok t, { pm with cache := cacheInsert pm.cache name t }, [fullPath pm f])) ∧
    (∀ t, cacheLookup (cacheInsert pm.cache name t) name = some t) :=
  ⟨fun t h => get_template_cache_hit pm name t h,
   fun uc h1 h2 => get_template_notfound pm name uc h1 h2,
   fun uc f doc t h1 h2 h3 h4 => get_template_loads pm name uc f t doc h1 h2 h3 h4,
   fun t => cacheLookup_cacheInsert pm.cache name t⟩

/-- Concrete store for the cache-hit branch: `w` cached as `T`, while the
disk file holds `W`. -/
def pmC5 : PromptManager :=
  { folderName := "prompts"
    folder := [("w.yml", .file (.str "W"))]
    strict := true
    cache := [("w", "T")] }

/-- Concrete store for the miss branches: one file, empty cache. -/
def pmC5b : PromptManager :=
  { folderName := "prompts"
    folder := [("w.yml", .file (.str "W"))]
    strict := true
    cache := [("w", "OLD")] }

/-- Witness for C5, exercising all branches of the contract: the cache hit
returns the cached string with no read; the unresolvable name raises
NotFound; the bypassed cache (`use_cache = false`) reloads from disk,
overwrites the prior cache binding and reports the single file read. -/
theorem get_template_contract_witness :
    get_template pmC5 "w" true = (.ok "T", pmC5, []) ∧
    get_template pmC5 "v" true =
      (.error (.promptNotFoundError ("Prompt " ++ sq ++ "v" ++ sq ++
        " not found in folder " ++ "prompts")), pmC5, []) ∧
    get_template pmC5b "w" false =
      (.ok "W", { pmC5b with cache := [("w", "W")] }, ["prompts/w.yml"]) ∧
    cacheLookup (cacheInsert pmC5b.cache "w" "W") "w" = some "W" :=
  ⟨(get_template_contract pmC5 "w").1 "T" rfl,
   (get_template_contract pmC5 "v").2.1 true rfl rfl,
   (get_template_contract pmC5b "w").2.2.1 false "w.yml" (.str "W") "W" rfl rfl rfl rfl,
   (get_template_contract pmC5b "w").2.2.2 "W"⟩

/-- C6.  When the resolved file's parsed content does not conform to the
accepted shapes, `get_template` fails with a validation error (`ValueError`)
and the store's state — in particular the cache entry for that identifier —
is unchanged. -/
theorem get_template_validation_error_state_unchanged
    (pm : PromptManager) (name : String) (uc : Bool) (f : String) (doc : YamlVal)
    (e : PMError)
    (hc : (if uc then cacheLookup pm.cache name else none) = none)
    (hr : resolve_path pm name = some f)
    (hd : fsDoc pm.folder f = some doc)
    (hl : load_template_from_file (fullPath pm f) doc = .error e) :
    (∃ m, e = .valueError m) ∧
    get_template pm name uc = (.error e, pm, [fullPath pm f]) :=
  ⟨load_template_error_is_valueError _ _ _ hl,
   get_template_load_error pm name uc f doc e hc hr hd hl⟩

/-- Concrete store with the three malformed shapes: a list root, a mapping
without `template` and a mapping whose `template` is not a string. -/
def pmC6 : PromptManager :=
  { folderName := "prompts"
    folder := [("bad.yml", .file (.other "list")),
               ("nokey.yml", .file (.map [("a", .str "b")])),
               ("badtype.yml", .file (.map [("template", .other "int")]))]
    strict := true
    cache := [] }

/-- Witness for C6: the list-root file raises the validation error naming
the type `list` and leaves the state untouched. -/
theorem get_template_validation_error_state_unchanged_witness :
    get_template pmC6 "bad" true =
      (.error (.valueError ("Unsupported YAML content type in " ++ sq ++
        "prompts/bad.yml" ++ sq ++ ": " ++ "list")), pmC6, ["prompts/bad.yml"]) :=
  (get_template_validation_error_state_unchanged pmC6 "bad" true "bad.yml"
    (.other "list") _ rfl rfl rfl rfl).2

/-- C7.  `list_prompts` returns exactly the base names of the regular files
of the folder whose extension is `.yml` or `.yaml` (same-name collisions
deduplicated), sorted strictly ascending, and it depends only on the folder,
not on the cache or the mode. -/
theorem list_prompts_spec (pm : PromptManager) :
    (∀ n, n ∈ list_prompts pm ↔ ∃ p ∈ pm.folder, fsIsFile pm.folder p.1 = true ∧
        (fileSuffix p.1 = ".yml" ∨ fileSuffix p.1 = ".yaml") ∧ fileStem p.1 = n) ∧
    List.Sorted (fun a b : String => a < b) (list_prompts pm) ∧
    (∀ fol fn c1 c2 s1 s2,
      list_prompts ⟨fn, fol, s1, c1⟩ = list_prompts ⟨fn, fol, s2, c2⟩) := by
  refine ⟨?_, ?_, fun fol fn c1 c2 s1 s2 => rfl⟩
  · intro n
    rw [list_prompts, List.mem_insertionSort, List.mem_dedup, List.mem_map]
    constructor
    · rintro ⟨p, hp, hstem⟩
      have := List.mem_filter.mp hp
      refine ⟨p, this.1, ?_, ?_, hstem⟩
      · have h2 := this.2
        simp only [Bool.decide_and, Bool.and_eq_true, decide_eq_true_eq] at h2
        exact h2.1
      · have h2 := this.2
        simp only [Bool.decide_and, Bool.and_eq_true, decide_eq_true_eq] at h2
        exact h2.2
    · rintro ⟨p, hp, hfile, hsuf, hstem⟩
      refine ⟨p, List.mem_filter.mpr ⟨hp, ?_⟩, hstem⟩
      simp only [Bool.decide_and, Bool.and_eq_true, decide_eq_true_eq]
      exact ⟨hfile, hsuf⟩
  · have hs : List.Sorted (fun a b : String => a ≤ b) (list_prompts pm) :=
      List.sorted_insertionSort _ _
    have hn : (list_prompts pm).Nodup := by
      rw [list_prompts]
      exact ((List.perm_insertionSort _ _).nodup_iff).mpr (List.nodup_dedup _)
    exact hs.lt_of_le hn

/-- Concrete folder with files `a.yml`, `b.yaml`, a same-stem collision, a
subdirectory and an unrecognized extension. -/
def pmC7 : PromptManager :=
  { folderName := "prompts"
    folder := [("b.yaml", .file (.str "B")), ("a.yml", .file (.str "A")),
               ("a.yaml", .file (.str "A2")), ("sub", .dir),
               ("notes.txt", .file (.str "N"))]
    strict := true
    cache := [("zzz", "stale")] }

/-- Witness for C7: the directory listing of the concrete store is exactly
the deduplicated sorted pair, and it is strictly sorted. -/
theorem list_prompts_spec_witness :
    List.Sorted (fun a b : String => a < b) (list_prompts pmC7) ∧
    list_prompts pmC7 = ["a", "b"] := by
  refine ⟨(list_prompts_spec pmC7).2.1, ?_⟩
  have hba : ¬ ("b" : String) ≤ "a" := by
    rw [String.le_iff_toList_le]
    decide
  show List.insertionSort (fun a b : String => a ≤ b) ["b", "a"] = ["a", "b"]
  simp [List.insertionSort, List.orderedInsert, hba]

/-- C8.  A mapping-form file whose `template` field holds the text `t`,
whatever other metadata entries the mapping carries, renders exactly like a
bare-string file holding `t`: for any two stores of the same mode resolving
`name` to such files, `render` returns the same outcome for every choice of
parameters. -/
theorem render_metadata_fields_irrelevant
    (pm1 pm2 : PromptManager) (name : String) (params : List (String × PyValue))
    (f1 f2 : String) (es : List (String × YamlVal)) (t : String)
    (hstr : pm1.strict = pm2.strict)
    (hc1 : cacheLookup pm1.cache name = none)
    (hc2 : cacheLookup pm2.cache name = none)
    (hr1 : resolve_path pm1 name = some f1)
    (hd1 : fsDoc pm1.folder f1 = some (.map es))
    (ht : dictLookup es "template" = some (.str t))
    (hr2 : resolve_path pm2 name = some f2)
    (hd2 : fsDoc pm2.folder f2 = some (.str t)) :
    (render pm1 name params).1 = (render pm2 name params).1 := by
  have hl1 : load_template_from_file (fullPath pm1 f1) (.map es) = .ok t := by
    rw [load_template_from_file, ht]
  have hget1 := get_template_loads pm1 name true f1 t (.map es) (by simp [hc1]) hr1 hd1 hl1
  have hget2 := get_template_loads pm2 name true f2 t (.str t) (by simp [hc2]) hr2 hd2 rfl
  rw [render, render, hget1, hget2]
  simp only [hstr]
  cases hs : pm2.strict with
  | true =>
    simp only [if_true]
    cases hsf : strFormat t params with
    | ok out => simp [hsf]
    | error e => cases e <;> simp [hsf]
  | false =>
    simp only [Bool.false_eq_true, if_false]
    cases hsf : strFormatMap t params with
    | ok out => simp [hsf]
    | error e => simp [hsf]

/-- Concrete pair of stores: a mapping file with metadata and its
bare-string equivalent. -/
def pmC8a : PromptManager :=
  { folderName := "prompts"
    folder := [("m.yml", .file (.map [("template", .str ("Hi " ++ lb ++ "n" ++ rb ++ "!")),
                                      ("description", .str "x")]))]
    strict := true
    cache := [] }

/-- Bare-string twin of the mapping store above. -/
def pmC8b : PromptManager :=
  { folderName := "prompts"
    folder := [("m.yml", .file (.str ("Hi " ++ lb ++ "n" ++ rb ++ "!")))]
    strict := true
    cache := [] }

/-- Witness for C8: the metadata file and the bare-string file render to the
same output. -/
theorem render_metadata_fields_irrelevant_witness :
    (render pmC8a "m" [("n", PyValue.s "Bob")]).1 =
      (render pmC8b "m" [("n", PyValue.s "Bob")]).1 ∧
    (render pmC8b "m" [("n", PyValue.s "Bob")]).1 = .ok "Hi Bob!" :=
  ⟨render_metadata_fields_irrelevant pmC8a pmC8b "m" [("n", PyValue.s "Bob")]
      "m.yml" "m.yml" [("template", .str ("Hi " ++ lb ++ "n" ++ rb ++ "!")),
        ("description", .str "x")] ("Hi " ++ lb ++ "n" ++ rb ++ "!")
      rfl rfl rfl rfl rfl rfl rfl rfl,
   rfl⟩

/-- C9.  When both `<name>.yml` and `<name>.yaml` exist as regular files,
`_resolve_path` deterministically picks the `.yml` candidate (tried first),
so on a cache miss `get_template` reads exactly the `.yml` file and its
outcome is the result of loading that file's document, and `render` reads
exactly that file as well. -/
theorem resolve_path_prefers_yml
    (pm : PromptManager) (name : String) (params : List (String × PyValue))
    (h1 : fsIsFile pm.folder (name ++ ".yml") = true)
    (h2 : fsIsFile pm.folder (name ++ ".yaml") = true) :
    resolve_path pm name = some (name ++ ".yml") ∧
    (cacheLookup pm.cache name = none →
      ∀ doc, fsDoc pm.folder (name ++ ".yml") = some doc →
        (get_template pm name true).1 =
          load_template_from_file (fullPath pm (name ++ ".yml")) doc ∧
        (get_template pm name true).2.2 = [fullPath pm (name ++ ".yml")] ∧
        (render pm name params).2.2 = [fullPath pm (name ++ ".yml")]) := by
  have hres : resolve_path pm name = some (name ++ ".yml") := by
    rw [resolve_path, if_pos h1]
  refine ⟨hres, fun hc doc hdoc => ?_⟩
  have hrender : ∀ r st rds, get_template pm name true = (r, st, rds) →
      (render pm name params).2.2 = rds := by
    intro r st rds hget
    rw [render, hget]
    cases r with
    | error e => rfl
    | ok t =>
      cases hs : pm.strict with
      | true =>
        simp only [if_true]
        cases hsf : strFormat t params with
        | ok out => rfl
        | error e => cases e <;> rfl
      | false =>
        simp only [Bool.false_eq_true, if_false]
        cases hsf : strFormatMap t params with
        | ok out => rfl
        | error e => rfl
  cases hl : load_template_from_file (fullPath pm (name ++ ".yml")) doc with
  | ok t =>
    have hget := get_template_loads pm name true (name ++ ".yml") t doc
      (by simp [hc]) hres hdoc hl
    exact ⟨by rw [hget], by rw [hget], hrender _ _ _ hget⟩
  | error e =>
    have hget := get_template_load_error pm name true (name ++ ".yml") doc e
      (by simp [hc]) hres hdoc hl
    exact ⟨by rw [hget], by rw [hget], hrender _ _ _ hget⟩

/-- Concrete store with both `both.yml` and `both.yaml` present, holding
different templates. -/
def pmC9 : PromptManager :=
  { folderName := "prompts"
    folder := [("both.yml", .file (.str "Y")), ("both.yaml", .file (.str "Z"))]
    strict := true
    cache := [] }

/-- Witness for C9: resolution picks `both.yml`, and `get_template` and
`render` read that file and return its content. -/
theorem resolve_path_prefers_yml_witness :
    resolve_path pmC9 "both" = some ("both" ++ ".yml") ∧
    (get_template pmC9 "both" true).1 = .ok "Y" ∧
    (get_template pmC9 "both" true).2.2 = ["prompts/both.yml"] ∧
    (render pmC9 "both" []).2.2 = ["prompts/both.yml"] := by
  have h := resolve_path_prefers_yml pmC9 "both" [] rfl rfl
  have h2 := h.2 rfl (.str "Y") rfl
  exact ⟨h.1, h2.1, h2.2.1, h2.2.2⟩
